import Mathlib

/-!
Shallow embedding of the Nenufar feedforward neural-network library
(src/src/blaf.rs, src/src/num_gen.rs, src/src/activation_fn.rs,
src/src/topology.rs, src/src/neural_net.rs).

Modelling conventions:
* `f64` values are modelled exactly by `ℚ`; floating-point rounding is
  abstracted away, the algebraic structure of each computation is kept.
* A `NumberGenerator` (trait with `generate_vec(size) -> Vec<f64>`) is a
  function `Nat → List ℚ`.
* An `ActivationFunction` (trait with `activate(f64) -> f64`) is a
  function `ℚ → ℚ`.
* Fallible Rust functions returning `Result<T, String>` become
  `Except String T`.  A reachable Rust panic (out-of-bounds index,
  `unwrap` on `None`) is modelled by an outer `Option` layer: `none`
  is a panic.
* The Rust slice `data[lb..ub]` is modelled by `(data.drop lb).take (ub - lb)`;
  the slicing panic for `ub > data.length` never fires under the
  `data.length = nb_rows * nb_columns` invariant assumed by the theorems
  that need it.
-/

namespace Nenufar

/-- Row-major matrix representation (struct `Matrix` in blaf.rs). -/
structure Matrix where
  nb_rows : Nat
  nb_columns : Nat
  data : List ℚ
deriving Repr

instance : Inhabited Matrix := ⟨⟨0, 0, []⟩⟩

/-- `Matrix::new(nb_rows, nb_cols, generator)`: fields are set verbatim from the
arguments, `data` is whatever `generator.generate_vec(nb_rows * nb_cols)` returns,
with no validation. -/
def Matrix.new (nb_rows nb_cols : Nat) (generator : Nat → List ℚ) : Matrix :=
  { nb_rows := nb_rows
    nb_columns := nb_cols
    data := generator (nb_rows * nb_cols) }

/-- Error message of the first `gemv` shape check. -/
def col_msg : String :=
  "Number of columns of matrix and size of first vector must be equal"

/-- Error message of the second `gemv` shape check. -/
def row_msg : String :=
  "Number of rows of matrix and size of second vector must be equal"

/-- The Rust `slice.iter().zip(x.iter()).map(|(a,b)| a*b).sum()` pattern:
sum of pairwise products, truncating at the shorter list like `zip` does. -/
def dotProd : List ℚ → List ℚ → ℚ
  | a :: as_, b :: bs => a * b + dotProd as_ bs
  | _, _ => 0

/-- `gemv(mat, x, y)` from blaf.rs: checks `nb_columns = x.length` then
`nb_rows = y.length`, then returns the vector whose component `index` is
`y[index] + data[index*nb_columns .. (index+1)*nb_columns] · x`. -/
def gemv (mat : Matrix) (x y : List ℚ) : Except String (List ℚ) :=
  if mat.nb_columns ≠ x.length then
    Except.error col_msg
  else if mat.nb_rows ≠ y.length then
    Except.error row_msg
  else
    Except.ok <| (List.range y.length).map fun index =>
      y.getD index 0 +
        dotProd ((mat.data.drop (index * mat.nb_columns)).take mat.nb_columns) x

/-- `apply_activation_function(fun, x)` from blaf.rs. -/
def apply_activation_function (f : ℚ → ℚ) (x : List ℚ) : List ℚ :=
  x.map f

/-- `Topology` from topology.rs.  The list of per-layer neuron counts is
named `layer_dimensions` in topology.rs but `nb_neurons` at its use sites
in neural_net.rs (the two files come from different revisions of the
repository); it is the same field and we use the neural_net.rs name. -/
structure Topology where
  nb_neurons : List Nat
  activation_functions : List (ℚ → ℚ)

/-- `TopologyBuilder` from topology.rs. -/
structure TopologyBuilder where
  nb_input : Nat
  nb_output : Nat
  hidden_layer_dimensions : List Nat
  activation_functions : List (ℚ → ℚ)

/-- `TopologyBuilder::new()`. -/
def TopologyBuilder.new : TopologyBuilder :=
  { nb_input := 0
    nb_output := 0
    hidden_layer_dimensions := []
    activation_functions := [] }

/-- `TopologyBuilder::nb_input(self, nb_input)` (named `set_nb_input` here
because the Rust method shares its name with the field). -/
def TopologyBuilder.set_nb_input (b : TopologyBuilder) (nb_input : Nat) :
    TopologyBuilder :=
  { b with nb_input := nb_input }

/-- `TopologyBuilder::nb_output(self, nb_output)` (named `set_nb_output` here
because the Rust method shares its name with the field). -/
def TopologyBuilder.set_nb_output (b : TopologyBuilder) (nb_output : Nat) :
    TopologyBuilder :=
  { b with nb_output := nb_output }

/-- `TopologyBuilder::add_layer(self, nb_neuron, activation_function)`. -/
def TopologyBuilder.add_layer (b : TopologyBuilder) (nb_neuron : Nat)
    (activation_function : ℚ → ℚ) : TopologyBuilder :=
  { b with
    hidden_layer_dimensions := b.hidden_layer_dimensions ++ [nb_neuron]
    activation_functions := b.activation_functions ++ [activation_function] }

/-- Error message of the first `build()` check. -/
def no_input_msg : String := "There is no input layer in your neural network"

/-- Error message of the second `build()` check. -/
def no_output_msg : String := "There is no output layer in your neural network"

/-- Error message of the third `build()` check. -/
def no_hidden_msg : String := "There is no hidden layer in your neural network"

/-- `TopologyBuilder::build(self)` from topology.rs: rejects `nb_input == 0`,
then `nb_output == 0`, then an empty hidden-layer list, and otherwise returns
the topology `[nb_input] ++ hidden_layer_dimensions ++ [nb_output]` together
with the accumulated activation functions. -/
def TopologyBuilder.build (b : TopologyBuilder) : Except String Topology :=
  if b.nb_input = 0 then
    Except.error no_input_msg
  else if b.nb_output = 0 then
    Except.error no_output_msg
  else if b.hidden_layer_dimensions.length = 0 then
    Except.error no_hidden_msg
  else
    Except.ok
      { nb_neurons := b.nb_input :: (b.hidden_layer_dimensions ++ [b.nb_output])
        activation_functions := b.activation_functions }

/-- `NeuralNet` from neural_net.rs (the Rust field is spelled `weigths`). -/
structure NeuralNet where
  weigths : List Matrix
  bias : List (List ℚ)
  activation_functions : List (ℚ → ℚ)

/-- `NeuralNet::new(topology, random_gen)`: for each `id` below
`nb_neurons.length - 1` pushes `Matrix::new(nb_neurons[id+1], nb_neurons[id],
random_gen)` and a bias `random_gen.generate_vec(nb_neurons[id+1])`, and takes
the topology's activation functions verbatim.  With an empty `nb_neurons` the
Rust expression `nb_layer - 1` underflows `usize` and panics, modelled by
`none`. -/
def NeuralNet.new (topology : Topology) (random_gen : Nat → List ℚ) :
    Option NeuralNet :=
  match topology.nb_neurons with
  | [] => none
  | _ :: _ =>
    some
      { weigths := (List.range (topology.nb_neurons.length - 1)).map fun id =>
          Matrix.new (topology.nb_neurons.getD (id + 1) 0)
            (topology.nb_neurons.getD id 0) random_gen
        bias := (List.range (topology.nb_neurons.length - 1)).map fun id =>
          random_gen (topology.nb_neurons.getD (id + 1) 0)
        activation_functions := topology.activation_functions }

/-- Error message of the `predict` input-size check. -/
def input_msg : String :=
  "Number of input are not consistent with topology of neural network"

/-- The `for id in 0..self.weigths.len()` loop of `NeuralNet::predict`,
walking the three per-transition lists in step.  Each iteration first indexes
`self.bias[id]` (panic, i.e. `none`, when missing), then runs `gemv` with the
`?` operator (an `Err` is returned as-is), then indexes
`self.activation_functions[id]` (panic when missing) and maps it over the
`gemv` result. -/
def predictLoop : List Matrix → List (List ℚ) → List (ℚ → ℚ) → List ℚ →
    Option (Except String (List ℚ))
  | [], _, _, output => some (Except.ok output)
  | _ :: _, [], _, _ => none
  | w :: ws, b :: bs, fs, output =>
    match gemv w output b with
    | Except.error e => some (Except.error e)
    | Except.ok neuron_inputs =>
      match fs with
      | [] => none
      | f :: fs' => predictLoop ws bs fs' (apply_activation_function f neuron_inputs)

/-- `NeuralNet::predict(input)` from neural_net.rs: indexes `weigths[0]`
(panic when `weigths` is empty), rejects an input whose length differs from
`weigths[0].nb_columns`, computes `max_size` by `max_by_key(...).unwrap()` on
`bias` (panic when `bias` is empty; the value only sizes an allocation), then
runs the layer loop on a copy of the input. -/
def NeuralNet.predict (net : NeuralNet) (input : List ℚ) :
    Option (Except String (List ℚ)) :=
  match net.weigths with
  | [] => none
  | w0 :: _ =>
    if input.length ≠ w0.nb_columns then
      some (Except.error input_msg)
    else if net.bias.length = 0 then
      none
    else
      predictLoop net.weigths net.bias net.activation_functions input

/-! ### Helper lemmas -/

/-- Indexing a list built by mapping a function over `List.range`. -/
theorem getD_map_range {α : Type} (f : Nat → α) (n i : Nat) (d : α) (h : i < n) :
    ((List.range n).map f).getD i d = f i := by
  rw [List.getD_eq_getElem _ _ (by simpa using h)]
  rw [List.getElem_map, List.getElem_range]

/-- `dotProd` as a finite sum over positions of the (shorter) first list. -/
theorem dotProd_eq_sum (a b : List ℚ) (h : a.length ≤ b.length) :
    dotProd a b = ∑ c ∈ Finset.range a.length, a.getD c 0 * b.getD c 0 := by
  induction a generalizing b with
  | nil => simp [dotProd]
  | cons x xs ih =>
    cases b with
    | nil => simp at h
    | cons y ys =>
      simp only [dotProd, List.length_cons]
      rw [Finset.sum_range_succ']
      simp only [List.getD_cons_succ, List.getD_cons_zero]
      rw [ih ys (by simpa using h)]
      ring

/-- An element of the row slice `data[lb..lb+n]` is the corresponding element
of `data`. -/
theorem slice_getD (data : List ℚ) (lb n c : Nat) (hc : c < n) :
    ((data.drop lb).take n).getD c 0 = data.getD (lb + c) 0 := by
  rw [List.getD_eq_getElem?_getD, List.getD_eq_getElem?_getD, List.getElem?_take,
    if_pos hc, List.getElem?_drop]

/-- Under the row-major length invariant, row `i`'s slice has `cols`
elements. -/
theorem slice_length (data : List ℚ) (i cols rows : Nat) (hi : i < rows)
    (hlen : data.length = rows * cols) :
    ((data.drop (i * cols)).take cols).length = cols := by
  rw [List.length_take, List.length_drop, hlen]
  have h : i * cols + cols ≤ rows * cols := by
    calc i * cols + cols = (i + 1) * cols := by ring
    _ ≤ rows * cols := Nat.mul_le_mul_right cols hi
  omega

/-- `predict` on a network with a nonempty weight list, unfolded. -/
theorem predict_cons (w0 : Matrix) (ws : List Matrix) (bias : List (List ℚ))
    (fs : List (ℚ → ℚ)) (input : List ℚ) :
    NeuralNet.predict ⟨w0 :: ws, bias, fs⟩ input =
      if input.length ≠ w0.nb_columns then some (Except.error input_msg)
      else if bias.length = 0 then none
      else predictLoop (w0 :: ws) bias fs input := rfl

/-- `gemv` only ever reports one of its two shape-check messages. -/
theorem gemv_error_msgs (mat : Matrix) (x y : List ℚ) (e : String)
    (h : gemv mat x y = Except.error e) : e = col_msg ∨ e = row_msg := by
  unfold gemv at h
  split_ifs at h
  · exact Or.inl (Except.error.inj h).symm
  · exact Or.inr (Except.error.inj h).symm

/-- The layer loop never reports the input-size message: its only errors come
from `gemv`'s two shape checks. -/
theorem predictLoop_ne_input_msg :
    ∀ (ws : List Matrix) (bs : List (List ℚ)) (fs : List (ℚ → ℚ))
      (out : List ℚ), predictLoop ws bs fs out ≠ some (Except.error input_msg) := by
  intro ws
  induction ws with
  | nil => intro bs fs out h; simp [predictLoop] at h
  | cons w ws ih =>
    intro bs fs out h
    cases bs with
    | nil => simp [predictLoop] at h
    | cons b bs' =>
      simp only [predictLoop] at h
      cases hg : gemv w out b with
      | error e =>
        rw [hg] at h
        simp only [Option.some.injEq, Except.error.injEq] at h
        rcases gemv_error_msgs w out b e hg with rfl | rfl
        · exact absurd h (by decide)
        · exact absurd h (by decide)
      | ok z =>
        rw [hg] at h
        cases fs with
        | nil => simp at h
        | cons f fs' => exact ih bs' fs' _ h

/-! ### Claim theorems -/

/-- C1: for every matrix satisfying the row-major length invariant and
vectors matching its two dimensions, `gemv` returns `Ok` of a vector of
`y`'s length whose component `r` is `y[r] + Σ_c data[r*nb_columns + c] * x[c]`. -/
theorem gemv_correct (mat : Matrix) (x y : List ℚ)
    (hdata : mat.data.length = mat.nb_rows * mat.nb_columns)
    (hx : x.length = mat.nb_columns)
    (hy : y.length = mat.nb_rows) :
    ∃ r : List ℚ, gemv mat x y = Except.ok r ∧ r.length = y.length ∧
      ∀ i, i < r.length →
        r.getD i 0 = y.getD i 0 +
          ∑ c ∈ Finset.range mat.nb_columns,
            mat.data.getD (i * mat.nb_columns + c) 0 * x.getD c 0 := by
  refine ⟨(List.range y.length).map fun index =>
      y.getD index 0 +
        dotProd ((mat.data.drop (index * mat.nb_columns)).take mat.nb_columns) x,
      ?_, by simp, ?_⟩
  · unfold gemv
    rw [if_neg (by omega), if_neg (by omega)]
  · intro i hi
    simp only [List.length_map, List.length_range] at hi
    rw [getD_map_range _ _ _ _ hi]
    congr 1
    have hslen :
        ((mat.data.drop (i * mat.nb_columns)).take mat.nb_columns).length
          = mat.nb_columns :=
      slice_length _ _ _ mat.nb_rows (by omega) hdata
    rw [dotProd_eq_sum _ _ (by rw [hslen, hx]), hslen]
    refine Finset.sum_congr rfl ?_
    intro c hc
    rw [slice_getD _ _ _ _ (Finset.mem_range.mp hc)]

/-- Witness for C1: the 4×3 worked example from the repository, evaluated at
a concrete input. -/
theorem gemv_correct_witness :
    ∃ r : List ℚ,
      gemv ⟨4, 3, [1, 2, 3, 2, 2, 4, 3, 2, 2, 4, 2, 1]⟩ [3, 2, 1] [4, 5, 2, 3]
        = Except.ok r ∧
      r.length = ([4, 5, 2, 3] : List ℚ).length ∧
      ∀ i, i < r.length →
        r.getD i 0 = ([4, 5, 2, 3] : List ℚ).getD i 0 +
          ∑ c ∈ Finset.range 3,
            ([1, 2, 3, 2, 2, 4, 3, 2, 2, 4, 2, 1] : List ℚ).getD (i * 3 + c) 0 *
              ([3, 2, 1] : List ℚ).getD c 0 :=
  gemv_correct ⟨4, 3, [1, 2, 3, 2, 2, 4, 3, 2, 2, 4, 2, 1]⟩ [3, 2, 1] [4, 5, 2, 3]
    (by decide) (by decide) (by decide)

/-- C3: `gemv` returns the columns-mismatch error whenever
`nb_columns ≠ x.length` (whatever `y` is), the rows-mismatch error whenever
the columns match but `nb_rows ≠ y.length`, and succeeds in the remaining
case (stated under the matrix's row-major length invariant, which rules out
the out-of-bounds slice panic). -/
theorem gemv_shape_cases (mat : Matrix) (x y : List ℚ) :
    (mat.nb_columns ≠ x.length → gemv mat x y = Except.error col_msg) ∧
    (mat.nb_columns = x.length → mat.nb_rows ≠ y.length →
      gemv mat x y = Except.error row_msg) ∧
    (mat.data.length = mat.nb_rows * mat.nb_columns →
      mat.nb_columns = x.length → mat.nb_rows = y.length →
      ∃ r, gemv mat x y = Except.ok r) := by
  unfold gemv
  exact ⟨fun h => by rw [if_pos h],
    fun h1 h2 => by rw [if_neg (by omega), if_pos h2],
    fun _ h1 h2 => ⟨_, by rw [if_neg (by omega), if_neg (by omega)]⟩⟩

/-- Witness for C3: a 3×5 matrix against a length-6 vector yields the
columns-mismatch error, at a concrete input. -/
theorem gemv_shape_cases_witness :
    gemv ⟨3, 5, List.replicate 15 0⟩ (List.replicate 6 0) (List.replicate 3 0)
      = Except.error col_msg :=
  (gemv_shape_cases ⟨3, 5, List.replicate 15 0⟩ (List.replicate 6 0)
    (List.replicate 3 0)).1 (by simp)

/-- C10: `Matrix::new` performs no validation: for every generator the fields
are the given dimensions and `data` is verbatim whatever
`generator.generate_vec(nb_rows * nb_cols)` returned, with no truncation,
padding or error. -/
theorem matrix_new_verbatim (nb_rows nb_cols : Nat) (generator : Nat → List ℚ) :
    (Matrix.new nb_rows nb_cols generator).nb_rows = nb_rows ∧
    (Matrix.new nb_rows nb_cols generator).nb_columns = nb_cols ∧
    (Matrix.new nb_rows nb_cols generator).data = generator (nb_rows * nb_cols) :=
  ⟨rfl, rfl, rfl⟩

/-- Counterexample to C8 as stated: a generator that always returns the empty
list gives a `Matrix::new` result violating `data.length = nb_rows * nb_columns`,
since the constructor stores the generator's output without validation. -/
theorem matrix_new_invariant_cex :
    (Matrix.new 1 1 fun _ => ([] : List ℚ)).data.length ≠ 1 * 1 := by
  decide

/-- C8 (amended): for every generator honouring its contract — returning
exactly the requested number of values — the `Matrix::new` result satisfies
`data.length = nb_rows * nb_columns` and its data is exactly the requested
values, stored in the row-major order `gemv` reads them in. -/
theorem matrix_new_invariant (nb_rows nb_cols : Nat) (generator : Nat → List ℚ)
    (hgen : (generator (nb_rows * nb_cols)).length = nb_rows * nb_cols) :
    (Matrix.new nb_rows nb_cols generator).data.length = nb_rows * nb_cols ∧
    (Matrix.new nb_rows nb_cols generator).data = generator (nb_rows * nb_cols) :=
  ⟨hgen, rfl⟩

/-- Witness for C8 (amended): a contract-honouring zero generator at 2×3. -/
theorem matrix_new_invariant_witness :
    (Matrix.new 2 3 fun n => List.replicate n 0).data.length = 2 * 3 ∧
    (Matrix.new 2 3 fun n => List.replicate n 0).data = List.replicate (2 * 3) 0 :=
  matrix_new_invariant 2 3 (fun n => List.replicate n 0) (by simp)

/-- C2 (evaluation at the failing input): a builder given input width 2 and
one added layer of width 3 — which the claim says makes `build()` succeed with
`nb_neurons = [2, 3]` — actually fails with the no-output-layer error, because
this revision of `build()` also requires the separate `nb_output` to be set. -/
theorem build_without_output_err :
    ((TopologyBuilder.new.set_nb_input 2).add_layer 3 id).build
      = Except.error no_output_msg := rfl

/-- C7 (evaluation at the failing input): an empty builder fails with the
missing-input error as claimed, but a builder with input width 1 and one added
layer — a success case according to the claim's two listed failure modes —
fails with a third, distinct error demanding the separate `nb_output`. -/
theorem build_failure_modes :
    (TopologyBuilder.new.build = Except.error no_input_msg) ∧
    (((TopologyBuilder.new.set_nb_input 1).add_layer 1 id).build
      = Except.error no_output_msg) ∧
    no_output_msg ≠ no_input_msg ∧ no_output_msg ≠ no_hidden_msg := by
  refine ⟨rfl, rfl, ?_, ?_⟩ <;> decide

/-- C9 (evaluation at the failing input): from a successfully built topology
(input 1, one hidden layer of width 1, output 1) and an exact zero generator,
`predict` on a correctly sized input panics (`none`): `build()` appends the
separate output layer without an activation function, so the loop's
`activation_functions[id]` indexing runs out of bounds at the last
transition. -/
theorem predict_panics_after_valid_build :
    ∃ t, (((TopologyBuilder.new.set_nb_input 1).add_layer 1 id).set_nb_output 1).build
        = Except.ok t ∧
      ∃ net, NeuralNet.new t (fun n => List.replicate n 0) = some net ∧
        net.predict [0] = none := by
  refine ⟨⟨[1, 1, 1], [id]⟩, rfl,
    ⟨[⟨1, 1, [0]⟩, ⟨1, 1, [0]⟩], [[0], [0]], [id]⟩, ?_, ?_⟩
  · simp [NeuralNet.new, Matrix.new, List.range_succ]
  · simp [NeuralNet.predict, predictLoop, gemv, apply_activation_function, dotProd,
      List.range_succ, col_msg, row_msg]

/-- C4: for a network with at least one weight matrix, `predict` reports the
input-size error exactly when the input's length differs from the first weight
matrix's column count; with a matching length no input-size error is ever
produced (any later failure is a `gemv` shape error or a panic, never this
message). -/
theorem predict_input_check (net : NeuralNet) (w0 : Matrix) (ws : List Matrix)
    (hw : net.weigths = w0 :: ws) (input : List ℚ) :
    net.predict input = some (Except.error input_msg) ↔
      input.length ≠ w0.nb_columns := by
  obtain ⟨weigths, bias, fs⟩ := net
  subst hw
  rw [predict_cons]
  by_cases h : input.length = w0.nb_columns
  · rw [if_neg (by omega)]
    refine iff_of_false ?_ (by omega)
    by_cases hb : bias.length = 0
    · rw [if_pos hb]; simp
    · rw [if_neg hb]; exact predictLoop_ne_input_msg _ _ _ _
  · rw [if_pos h]
    exact iff_of_true rfl h

/-- Witness for C4: a 1×2 single-layer network given a length-3 input reports
the input-size error. -/
theorem predict_input_check_witness :
    NeuralNet.predict ⟨[⟨1, 2, [0, 0]⟩], [[0]], [id]⟩ [0, 0, 0]
      = some (Except.error input_msg) :=
  (predict_input_check ⟨[⟨1, 2, [0, 0]⟩], [[0]], [id]⟩ ⟨1, 2, [0, 0]⟩ [] rfl
    [0, 0, 0]).mpr (by decide)

/-- The layer loop follows any trace `a` of the per-transition recurrence:
starting from `a k`, if every remaining transition's `gemv` succeeds and the
activated result is the next trace entry, the loop returns the final entry. -/
theorem predictLoop_trace :
    ∀ (ws : List Matrix) (bs : List (List ℚ)) (fs : List (ℚ → ℚ))
      (a : Nat → List ℚ) (k : Nat),
      bs.length = ws.length → fs.length = ws.length →
      (∀ i, i < ws.length →
        ∃ z, gemv (ws.getD i default) (a (k + i)) (bs.getD i []) = Except.ok z ∧
          a (k + i + 1) = apply_activation_function (fs.getD i id) z) →
      predictLoop ws bs fs (a k) = some (Except.ok (a (k + ws.length))) := by
  intro ws
  induction ws with
  | nil =>
    intro bs fs a k _ _ _
    simp [predictLoop]
  | cons w ws ih =>
    intro bs fs a k hb hf hstep
    cases bs with
    | nil => simp at hb
    | cons b bs' =>
      cases fs with
      | nil => simp at hf
      | cons f fs' =>
        obtain ⟨z, hz, hanext⟩ := hstep 0 (by simp)
        simp only [List.getD_cons_zero, Nat.add_zero] at hz hanext
        simp only [predictLoop]
        rw [hz]
        show predictLoop ws bs' fs' (apply_activation_function f z) = _
        rw [← hanext]
        have hshift : ∀ i, i < ws.length →
            ∃ z', gemv (ws.getD i default) (a (k + 1 + i)) (bs'.getD i [])
                = Except.ok z' ∧
              a (k + 1 + i + 1)
                = apply_activation_function (fs'.getD i id) z' := by
          intro i hi
          obtain ⟨z', hz', ha'⟩ := hstep (i + 1) (by simpa using Nat.succ_lt_succ hi)
          refine ⟨z', ?_, ?_⟩
          · simpa [List.getD_cons_succ,
              show k + (i + 1) = k + 1 + i from by omega] using hz'
          · simpa [List.getD_cons_succ,
              show k + (i + 1) + 1 = k + 1 + i + 1 from by omega] using ha'
        have hrec := ih bs' fs' a (k + 1) (by simpa using hb) (by simpa using hf)
          hshift
        rw [hrec]
        have : k + 1 + ws.length = k + (w :: ws).length := by
          simp [List.length_cons]; omega
        rw [this]

/-- C5: for every network whose three per-transition lists have the common
length `L ≥ 1` and every input of the declared width, `predict` computes the
strictly sequential fold: given a trace `a` with `a 0 = input` and
`a (i+1) = activation_functions[i]` mapped over
`gemv(weights[i], a i, bias[i])` for each `i < L` in order, the returned
output is `a L`. -/
theorem predict_fold (net : NeuralNet) (L : Nat) (input : List ℚ)
    (a : Nat → List ℚ)
    (hL : 1 ≤ L)
    (hw : net.weigths.length = L)
    (hb : net.bias.length = L)
    (hf : net.activation_functions.length = L)
    (h0 : a 0 = input)
    (hin : input.length = (net.weigths.headD default).nb_columns)
    (hstep : ∀ i, i < L →
      ∃ z, gemv (net.weigths.getD i default) (a i) (net.bias.getD i [])
          = Except.ok z ∧
        a (i + 1)
          = apply_activation_function (net.activation_functions.getD i id) z) :
    net.predict input = some (Except.ok (a L)) := by
  obtain ⟨weigths, bias, fs⟩ := net
  cases weigths with
  | nil => simp at hw; omega
  | cons w0 ws =>
    dsimp only at hw hb hf hin hstep
    rw [predict_cons]
    simp only [List.headD_cons] at hin
    rw [if_neg (by omega), if_neg (by omega)]
    rw [← h0]
    have htrace := predictLoop_trace (w0 :: ws) bias fs a 0
      (by simp_all) (by simp_all)
      (by
        intro i hi
        obtain ⟨z, hz, ha'⟩ := hstep i (by omega)
        exact ⟨z, by simpa using hz, by simpa using ha'⟩)
    rw [htrace]
    rw [show 0 + (w0 :: ws).length = L from by simpa using hw]

/-- Witness for C5: a 1×2 all-ones perceptron with identity activation maps
`[1, 2]` to `[4]`, following the trace `a 0 = [1, 2]`, `a 1 = [4]`. -/
theorem predict_fold_witness :
    NeuralNet.predict ⟨[⟨1, 2, [1, 1]⟩], [[1]], [id]⟩ [1, 2]
      = some (Except.ok [4]) := by
  have h := predict_fold ⟨[⟨1, 2, [1, 1]⟩], [[1]], [id]⟩ 1 [1, 2]
    (fun i => if i = 0 then [1, 2] else [4])
    (Nat.le_refl 1) rfl rfl rfl rfl rfl
    (by
      intro i hi
      have hi0 : i = 0 := by omega
      subst hi0
      refine ⟨[4], ?_, ?_⟩
      · norm_num [gemv, dotProd, List.range_succ]
      · norm_num [apply_activation_function])
  simpa using h

/-- C6: for every topology with `L + 1` neuron counts (`L ≥ 1`), `L`
activation functions, and a generator returning exactly the requested number
of values, `NeuralNet::new` succeeds and yields `L` weight matrices, `L`
biases and the topology's activation functions verbatim, with
`weights[i].nb_columns = nb_neurons[i]` and
`weights[i].nb_rows = nb_neurons[i+1] = biases[i].length` for every `i < L`. -/
theorem neural_net_new_spec (t : Topology) (generator : Nat → List ℚ) (L : Nat)
    (hL : 1 ≤ L)
    (hn : t.nb_neurons.length = L + 1)
    (ha : t.activation_functions.length = L)
    (hgen : ∀ n, (generator n).length = n) :
    ∃ net, NeuralNet.new t generator = some net ∧
      net.weigths.length = L ∧ net.bias.length = L ∧
      net.activation_functions = t.activation_functions ∧
      net.activation_functions.length = L ∧
      ∀ i, i < L →
        (net.weigths.getD i default).nb_columns = t.nb_neurons.getD i 0 ∧
        (net.weigths.getD i default).nb_rows = t.nb_neurons.getD (i + 1) 0 ∧
        (net.bias.getD i []).length = t.nb_neurons.getD (i + 1) 0 := by
  obtain ⟨nb, fs⟩ := t
  dsimp only at hn ha ⊢
  cases nb with
  | nil => simp at hn
  | cons n0 rest =>
    refine ⟨_, rfl, ?_, ?_, rfl, ?_, ?_⟩
    · dsimp only
      simp only [List.length_map, List.length_range]
      omega
    · dsimp only
      simp only [List.length_map, List.length_range]
      omega
    · exact ha
    · intro i hi
      have hlt : i < (n0 :: rest).length - 1 := by omega
      dsimp only
      rw [getD_map_range _ _ _ _ hlt, getD_map_range _ _ _ _ hlt]
      exact ⟨rfl, rfl, hgen _⟩

/-- Witness for C6: the `[2, 3, 1]` topology of the repository's constructor
test, with identity activations and the zero generator. -/
theorem neural_net_new_spec_witness :
    ∃ net,
      NeuralNet.new ⟨[2, 3, 1], [id, id]⟩ (fun n => List.replicate n 0)
        = some net ∧
      net.weigths.length = 2 ∧ net.bias.length = 2 ∧
      net.activation_functions
        = (⟨[2, 3, 1], [id, id]⟩ : Topology).activation_functions ∧
      net.activation_functions.length = 2 ∧
      ∀ i, i < 2 →
        (net.weigths.getD i default).nb_columns
          = (⟨[2, 3, 1], [id, id]⟩ : Topology).nb_neurons.getD i 0 ∧
        (net.weigths.getD i default).nb_rows
          = (⟨[2, 3, 1], [id, id]⟩ : Topology).nb_neurons.getD (i + 1) 0 ∧
        (net.bias.getD i []).length
          = (⟨[2, 3, 1], [id, id]⟩ : Topology).nb_neurons.getD (i + 1) 0 :=
  neural_net_new_spec ⟨[2, 3, 1], [id, id]⟩ (fun n => List.replicate n 0) 2
    (by omega) rfl rfl (fun n => List.length_replicate n 0)

end Nenufar
